import Mathlib

/-!
Verification of the Bakery-algorithm mutual-exclusion core of
`src/main.py` (Lamport's bakery over two growable global arrays
`choosing[]` and `number[]`, plus the `System` registry/allocator).

The Python globals `choosing : list[bool]` and `number : list[int]`
(lines 37-38) form the Registry; we package them in `BakeryState`.
Pure helpers are translated as functions on `BakeryState`; the
concurrent protocol `bakery_lock` is translated as a small-step thread
machine (`threadStep`) whose atomic steps are the individual reads and
writes of the Python code, so that interleavings of several threads can
be expressed as schedules.
-/

/-- The two global arrays of the bakery algorithm (`choosing`, `number`,
lines 37-38 of `src/main.py`).  `choosing.getD j false` models the read
`choosing[j]`, `number.getD j 0` models `number[j]`; in the program both
lists always have the same length, so the defaults are never hit on the
indices the code uses. -/
structure BakeryState where
  choosing : List Bool
  number : List Nat
deriving DecidableEq

/-- The initial value of the two global arrays: both empty (lines 37-38). -/
def initialBakery : BakeryState := ⟨[], []⟩

/-- One iteration budget for the `while idx >= len(choosing)` loop of
`ensure_bakery_size` (lines 48-51): each iteration appends `False` to
`choosing` and `0` to `number`.  The loop runs at most `idx + 1` times
(each pass grows `choosing` by one and stops as soon as
`len(choosing) > idx`), so `ensure_bakery_size` below supplies fuel
`idx + 1`, which is always sufficient. -/
def ensureAux (fuel : Nat) (idx : Nat) (s : BakeryState) : BakeryState :=
  match fuel with
  | 0 => s
  | fuel + 1 =>
    if s.choosing.length ≤ idx then
      ensureAux fuel idx ⟨s.choosing ++ [false], s.number ++ [0]⟩
    else s

/-- `ensure_bakery_size(idx)` (lines 40-51): under `bakery_mutex`,
append `False` / `0` to the two arrays while `idx >= len(choosing)`.
The mutex only makes the whole growth atomic, which is how we model it:
one atomic state transformation. -/
def ensure_bakery_size (idx : Nat) (s : BakeryState) : BakeryState :=
  ensureAux (idx + 1) idx s

/-- `bakery_unlock(i)` (lines 78-85): `number[i] = 0`.  (In Python an
out-of-range `i` would raise `IndexError`; `List.set` is then a no-op,
and the theorems about `bakery_unlock` assume `i` indexes a slot.) -/
def bakery_unlock (i : Nat) (s : BakeryState) : BakeryState :=
  { s with number := s.number.set i 0 }

/-- `max(number) if number else 0` (line 64).  For a nonempty list of
natural numbers, folding `Nat.max` from `0` is exactly Python's `max`. -/
def maxNumber (l : List Nat) : Nat :=
  if l = [] then 0 else l.foldl Nat.max 0

/-- The wait condition of line 74 of `src/main.py`, read off verbatim:
`number[j] != 0 and (number[j] < number[i] or (number[j] == number[i] and j < i))`.
This is the Fairness Comparator test: slot `j` holds a nonzero ticket
and `(number[j], j)` is lexicographically less than `(number[i], i)`. -/
def waitCondB (s : BakeryState) (i j : Nat) : Bool :=
  (s.number.getD j 0 != 0) &&
    ((s.number.getD j 0 < s.number.getD i 0) ||
      (s.number.getD j 0 == s.number.getD i 0 && j < i))

/-- Program counter of one thread executing
`bakery_lock(i); critical section; bakery_unlock(i)` (lines 54-85).
The labels follow the lines of `bakery_lock`:
`ensure` = line 61, `setChoosing` = line 62, `readMax` = line 64,
`writeTicket` = line 65, `clearChoosing` = line 66, `loopInit` = the
evaluation of `range(len(number))` at line 68, `loopTest` = the test of
the outer `while choosing[j]` (line 70, and the `for` bound test),
`innerTest` = the test of the nested `while` at line 74, `inCS` = the
caller's critical section after `bakery_lock` returned, `unlockStep` =
`bakery_unlock` (line 85), `done` = terminated. -/
inductive PC where
  | ensure
  | setChoosing
  | readMax
  | writeTicket
  | clearChoosing
  | loopInit
  | loopTest
  | innerTest
  | inCS
  | unlockStep
  | done
deriving DecidableEq

/-- Local state of one thread: its bakery id `id`, program counter `pc`,
the local `max_num` register (`reg`, line 64), the snapshot of
`len(number)` taken by `range(len(number))` (`bound`, line 68), and the
loop variable `j`. -/
structure ThreadSt where
  id : Nat
  pc : PC
  reg : Nat
  bound : Nat
  j : Nat
deriving DecidableEq

/-- One atomic step of a thread running
`bakery_lock(id); critical section; bakery_unlock(id)`, acting on the
shared `BakeryState`.  Each step is one read or one write of the Python
code; `time.sleep` calls are where other threads interleave, which the
schedule-based semantics below already allows between any two steps.
The nesting of the two `while` loops is exactly that of lines 68-75:
from `loopTest`, if `choosing[j]` is false the loop moves on to `j + 1`
WITHOUT ever evaluating the line-74 condition; only when `choosing[j]`
is observed true does control reach `innerTest`. -/
def threadStep (s : BakeryState) (t : ThreadSt) : BakeryState × ThreadSt :=
  match t.pc with
  | PC.ensure =>
      (ensure_bakery_size t.id s, { t with pc := PC.setChoosing })
  | PC.setChoosing =>
      ({ s with choosing := s.choosing.set t.id true }, { t with pc := PC.readMax })
  | PC.readMax =>
      (s, { t with reg := maxNumber s.number, pc := PC.writeTicket })
  | PC.writeTicket =>
      ({ s with number := s.number.set t.id (t.reg + 1) }, { t with pc := PC.clearChoosing })
  | PC.clearChoosing =>
      ({ s with choosing := s.choosing.set t.id false }, { t with pc := PC.loopInit })
  | PC.loopInit =>
      (s, { t with bound := s.number.length, j := 0, pc := PC.loopTest })
  | PC.loopTest =>
      if t.bound ≤ t.j then (s, { t with pc := PC.inCS })
      else if s.choosing.getD t.j false then (s, { t with pc := PC.innerTest })
      else (s, { t with j := t.j + 1 })
  | PC.innerTest =>
      if waitCondB s t.id t.j then (s, t)
      else (s, { t with pc := PC.loopTest })
  | PC.inCS =>
      (s, { t with pc := PC.unlockStep })
  | PC.unlockStep =>
      (bakery_unlock t.id s, { t with pc := PC.done })
  | PC.done => (s, t)

/-- A configuration: the shared bakery arrays plus the local states of
the participating threads. -/
structure Config where
  shared : BakeryState
  threads : List ThreadSt
deriving DecidableEq

/-- Let thread number `tid` (an index into `threads`) perform one atomic
step. -/
def stepTid (c : Config) (tid : Nat) : Config :=
  match c.threads[tid]? with
  | none => c
  | some t =>
    let r := threadStep c.shared t
    { shared := r.1, threads := c.threads.set tid r.2 }

/-- Run a schedule: a list of thread indices, each performing one atomic
step in order.  Any interleaving of the threads is some schedule. -/
def runSched (c : Config) (sched : List Nat) : Config :=
  sched.foldl stepTid c

/-- A freshly started thread with bakery id `i`, about to execute
`bakery_lock(i)`. -/
def mkThread (i : Nat) : ThreadSt := ⟨i, PC.ensure, 0, 0, 0⟩

/-- Two threads with bakery ids 0 and 1 starting on the initial (empty)
arrays. -/
def initTwo : Config := ⟨initialBakery, [mkThread 0, mkThread 1]⟩

/-- A single thread with bakery id 5 starting on the initial (empty)
arrays: Scenario C of the spec. -/
def initFive : Config := ⟨initialBakery, [mkThread 5]⟩

/-- The fields of `System` (lines 150-156) that the bakery core uses:
`bakery_id_counter` and, through the globals, the Registry.  The demo
fields (`ready_queue`, `terminated`, `running_threads`, `last_pid`) are
harness state outside the verified core; `last_pid` is kept because
`reset` also clears it. -/
structure SystemState where
  last_pid : Nat
  bakery_id_counter : Nat
  registry : BakeryState
deriving DecidableEq

/-- `System.reset` (lines 158-172): clears the demo queues, sets
`last_pid = 0` and `bakery_id_counter = 0`, and under `bakery_mutex`
resets the globals `choosing = []`, `number = []`. -/
def systemReset (_s : SystemState) : SystemState :=
  { last_pid := 0, bakery_id_counter := 0, registry := ⟨[], []⟩ }

/-- `System.allocate_bakery_id` (lines 174-185): under `assign_lock`,
read the counter into `idx`, increment the counter, call
`ensure_bakery_size(idx)`, and return `idx`.  Returns the allocated id
together with the new system state. -/
def allocate_bakery_id (s : SystemState) : Nat × SystemState :=
  let idx := s.bakery_id_counter
  (idx,
    { s with
      bakery_id_counter := idx + 1,
      registry := ensure_bakery_size idx s.registry })

/-- A fresh `System` (lines 150-156): counters 0, empty Registry. -/
def initialSystem : SystemState := ⟨0, 0, initialBakery⟩

/-! ### Helper lemmas about `ensure_bakery_size` -/

/-- Closed form of the growth loop, for any sufficient fuel: it appends
`idx + 1 - len(choosing)` default slots to both arrays. -/
theorem ensureAux_closed (fuel idx : Nat) :
    ∀ s : BakeryState, idx + 1 - s.choosing.length ≤ fuel →
      ensureAux fuel idx s =
        ⟨s.choosing ++ List.replicate (idx + 1 - s.choosing.length) false,
         s.number ++ List.replicate (idx + 1 - s.choosing.length) 0⟩ := by
  induction fuel with
  | zero =>
    intro s h
    obtain ⟨c, n⟩ := s
    simp only [BakeryState.mk.injEq]
    have hz : idx + 1 - c.length = 0 := Nat.le_zero.mp h
    simp [ensureAux, hz]
  | succ fuel ih =>
    intro s h
    obtain ⟨c, n⟩ := s
    dsimp only at h ⊢
    by_cases hle : c.length ≤ idx
    · have h1 : idx + 1 - (c ++ [false]).length ≤ fuel := by
        simp only [List.length_append, List.length_singleton]
        omega
      have h2 : idx + 1 - c.length = (idx + 1 - (c.length + 1)) + 1 := by omega
      simp only [ensureAux, hle, if_true]
      rw [ih ⟨c ++ [false], n ++ [0]⟩ h1]
      simp only [List.length_append, List.length_singleton, BakeryState.mk.injEq, h2,
        List.replicate_succ, List.append_assoc, List.singleton_append]
    · have hz : idx + 1 - c.length = 0 := by omega
      simp [ensureAux, hle, hz]

/-- `ensure_bakery_size` in closed form: append
`idx + 1 - len(choosing)` default slots to each array. -/
theorem ensure_closed (idx : Nat) (s : BakeryState) :
    ensure_bakery_size idx s =
      ⟨s.choosing ++ List.replicate (idx + 1 - s.choosing.length) false,
       s.number ++ List.replicate (idx + 1 - s.choosing.length) 0⟩ :=
  ensureAux_closed (idx + 1) idx s (by omega)

/-- Length of the `choosing` array after growth. -/
theorem ensure_len_choosing (idx : Nat) (s : BakeryState) :
    (ensure_bakery_size idx s).choosing.length =
      s.choosing.length + (idx + 1 - s.choosing.length) := by
  rw [ensure_closed]; simp

/-- Length of the `number` array after growth. -/
theorem ensure_len_number (idx : Nat) (s : BakeryState) :
    (ensure_bakery_size idx s).number.length =
      s.number.length + (idx + 1 - s.choosing.length) := by
  rw [ensure_closed]; simp

/-- Growth makes the `choosing` array long enough for `idx`. -/
theorem ensure_idx_lt (idx : Nat) (s : BakeryState) :
    idx < (ensure_bakery_size idx s).choosing.length := by
  rw [ensure_len_choosing]; omega

/-- Preexisting `choosing` entries are unchanged by growth. -/
theorem ensure_choosing_frame (idx k : Nat) (s : BakeryState)
    (hk : k < s.choosing.length) :
    (ensure_bakery_size idx s).choosing[k]? = s.choosing[k]? := by
  rw [ensure_closed]
  simp only [List.getElem?_append, hk, if_true]

/-- Preexisting `number` entries are unchanged by growth. -/
theorem ensure_number_frame (idx k : Nat) (s : BakeryState)
    (hk : k < s.number.length) :
    (ensure_bakery_size idx s).number[k]? = s.number[k]? := by
  rw [ensure_closed]
  simp only [List.getElem?_append, hk, if_true]

/-- Newly appended `choosing` entries are `false`. -/
theorem ensure_choosing_default (idx k : Nat) (s : BakeryState)
    (hk1 : s.choosing.length ≤ k)
    (hk2 : k < (ensure_bakery_size idx s).choosing.length) :
    (ensure_bakery_size idx s).choosing[k]? = some false := by
  rw [ensure_len_choosing] at hk2
  rw [ensure_closed]
  simp only [List.getElem?_append, List.getElem?_replicate]
  rw [if_neg (by omega), if_pos (by omega)]

/-- Newly appended `number` entries are `0`. -/
theorem ensure_number_default (idx k : Nat) (s : BakeryState)
    (hk1 : s.number.length ≤ k)
    (hk2 : k < (ensure_bakery_size idx s).number.length) :
    (ensure_bakery_size idx s).number[k]? = some 0 := by
  rw [ensure_len_number] at hk2
  rw [ensure_closed]
  simp only [List.getElem?_append, List.getElem?_replicate]
  rw [if_neg (by omega), if_pos (by omega)]

/-! ### Helper lemmas about `Nat.max` folds and list updates -/

/-- The running fold of `Nat.max` dominates its initial value. -/
theorem foldl_max_init_le (l : List Nat) : ∀ a : Nat, a ≤ l.foldl Nat.max a := by
  induction l with
  | nil => intro a; exact Nat.le_refl a
  | cons b l ih =>
    intro a
    exact Nat.le_trans (Nat.le_max_left a b) (ih (Nat.max a b))

/-- The fold of `Nat.max` dominates every list element. -/
theorem mem_le_foldl_max (l : List Nat) : ∀ a : Nat, ∀ x ∈ l, x ≤ l.foldl Nat.max a := by
  induction l with
  | nil => intro a x hx; cases hx
  | cons b l ih =>
    intro a x hx
    cases hx with
    | head =>
      exact Nat.le_trans (Nat.le_max_right a b) (foldl_max_init_le l (Nat.max a b))
    | tail _ hx => exact ih (Nat.max a b) x hx

/-- `Nat.max` picks one of its arguments. -/
theorem nat_max_choice (a b : Nat) : Nat.max a b = a ∨ Nat.max a b = b := by
  show max a b = a ∨ max a b = b
  rw [Nat.max_def]
  split
  · exact Or.inr rfl
  · exact Or.inl rfl

/-- The fold of `Nat.max` is the initial value or one of the elements. -/
theorem foldl_max_eq_or_mem (l : List Nat) :
    ∀ a : Nat, l.foldl Nat.max a = a ∨ l.foldl Nat.max a ∈ l := by
  induction l with
  | nil => intro a; exact Or.inl rfl
  | cons b l ih =>
    intro a
    rcases ih (Nat.max a b) with h | h
    · rw [List.foldl_cons, h]
      rcases nat_max_choice a b with hm | hm
      · exact Or.inl hm
      · exact Or.inr (by rw [hm]; exact List.mem_cons_self b l)
    · exact Or.inr (List.mem_cons_of_mem b h)

/-- Every element of a list is at most `maxNumber` of the list. -/
theorem le_maxNumber (l : List Nat) (x : Nat) (hx : x ∈ l) : x ≤ maxNumber l := by
  unfold maxNumber
  rw [if_neg (List.ne_nil_of_mem hx)]
  exact mem_le_foldl_max l 0 x hx

/-- On a nonempty list, `maxNumber` is one of the elements (it is
Python's `max`). -/
theorem maxNumber_mem (l : List Nat) (hne : l ≠ []) : maxNumber l ∈ l := by
  unfold maxNumber
  rw [if_neg hne]
  rcases foldl_max_eq_or_mem l 0 with h | h
  · obtain ⟨b, l', rfl⟩ := List.exists_cons_of_ne_nil hne
    have hb : b ≤ (b :: l').foldl Nat.max 0 :=
      mem_le_foldl_max (b :: l') 0 b (List.mem_cons_self b l')
    rw [h] at hb
    have hb0 : b = 0 := Nat.le_zero.mp hb
    rw [h, ← hb0]
    exact List.mem_cons_self b l'
  · exact h

/-- Reading back the updated index of `List.set`. -/
theorem getD_set_self {α : Type} (l : List α) (i : Nat) (v d : α)
    (h : i < l.length) : (l.set i v).getD i d = v := by
  rw [List.getD_eq_getElem?_getD, List.getElem?_set_self]
  · rfl
  · exact h

/-- Reading any other index of `List.set`. -/
theorem getD_set_ne {α : Type} (l : List α) (i j : Nat) (v d : α)
    (h : i ≠ j) : (l.set i v).getD j d = l.getD j d := by
  rw [List.getD_eq_getElem?_getD, List.getElem?_set_ne h, ← List.getD_eq_getElem?_getD]

/-! ### The length invariant of the Registry -/

/-- The implicit Registry invariant: the `choosing` and `number` arrays
have the same length. -/
def lenInv (s : BakeryState) : Prop := s.choosing.length = s.number.length

instance (s : BakeryState) : Decidable (lenInv s) := by
  unfold lenInv; infer_instance

/-- Growth preserves the length invariant. -/
theorem lenInv_ensure (idx : Nat) (s : BakeryState) (h : lenInv s) :
    lenInv (ensure_bakery_size idx s) := by
  unfold lenInv at h ⊢
  rw [ensure_len_choosing, ensure_len_number, h]

/-! ### Claim theorems -/

/-- C5: after `ensure_bakery_size idx` returns, the Registry size
strictly exceeds `idx` (for both arrays), every slot that existed before
the call is unchanged, and every newly appended slot has
`choosing = false` and `ticket = 0`. -/
theorem C5_ensure_capacity_postcondition (idx : Nat) (s : BakeryState)
    (h : lenInv s) :
    idx < (ensure_bakery_size idx s).choosing.length ∧
    idx < (ensure_bakery_size idx s).number.length ∧
    (∀ k, k < s.choosing.length →
      (ensure_bakery_size idx s).choosing[k]? = s.choosing[k]? ∧
      (ensure_bakery_size idx s).number[k]? = s.number[k]?) ∧
    (∀ k, s.choosing.length ≤ k → k < (ensure_bakery_size idx s).choosing.length →
      (ensure_bakery_size idx s).choosing[k]? = some false ∧
      (ensure_bakery_size idx s).number[k]? = some 0) := by
  unfold lenInv at h
  have hlc := ensure_len_choosing idx s
  have hln := ensure_len_number idx s
  refine ⟨ensure_idx_lt idx s, by omega, ?_, ?_⟩
  · intro k hk
    exact ⟨ensure_choosing_frame idx k s hk, ensure_number_frame idx k s (by omega)⟩
  · intro k hk1 hk2
    exact ⟨ensure_choosing_default idx k s hk1 hk2,
      ensure_number_default idx k s (by omega) (by omega)⟩

/-- Witness for C5: growing `⟨[true], [7]⟩` to cover index 2 keeps slot 0
and fills slot 2 with the defaults. -/
theorem C5_ensure_capacity_postcondition_witness :
    lenInv (⟨[true], [7]⟩ : BakeryState) ∧
    (ensure_bakery_size 2 ⟨[true], [7]⟩).number[0]? = some 7 ∧
    (ensure_bakery_size 2 ⟨[true], [7]⟩).number[2]? = some 0 :=
  ⟨by decide,
   ((C5_ensure_capacity_postcondition 2 ⟨[true], [7]⟩ (by decide)).2.2.1 0 (by decide)).2,
   ((C5_ensure_capacity_postcondition 2 ⟨[true], [7]⟩ (by decide)).2.2.2 2 (by decide) (by decide)).2⟩

/-- C6: `ensure_bakery_size k` is idempotent — a second call leaves the
Registry exactly as the first call left it, and in particular every
index below `k` reads the same after the second call as after the
first. -/
theorem C6_ensure_capacity_idempotent (k : Nat) (s : BakeryState) :
    ensure_bakery_size k (ensure_bakery_size k s) = ensure_bakery_size k s ∧
    ∀ m, m < k →
      (ensure_bakery_size k (ensure_bakery_size k s)).choosing[m]? =
        (ensure_bakery_size k s).choosing[m]? ∧
      (ensure_bakery_size k (ensure_bakery_size k s)).number[m]? =
        (ensure_bakery_size k s).number[m]? := by
  have h1 : ensure_bakery_size k (ensure_bakery_size k s) = ensure_bakery_size k s := by
    rw [ensure_closed k (ensure_bakery_size k s)]
    have hz : k + 1 - (ensure_bakery_size k s).choosing.length = 0 := by
      have := ensure_idx_lt k s; omega
    rw [hz]
    simp
  exact ⟨h1, fun m _ => ⟨by rw [h1], by rw [h1]⟩⟩

/-- Witness for C6 at `k = 3` on the empty Registry. -/
theorem C6_ensure_capacity_idempotent_witness :
    ensure_bakery_size 3 (ensure_bakery_size 3 initialBakery) =
      ensure_bakery_size 3 initialBakery ∧
    (ensure_bakery_size 3 (ensure_bakery_size 3 initialBakery)).choosing[1]? =
      (ensure_bakery_size 3 initialBakery).choosing[1]? :=
  ⟨(C6_ensure_capacity_idempotent 3 initialBakery).1,
   ((C6_ensure_capacity_idempotent 3 initialBakery).2 1 (by decide)).1⟩

/-- C7: `bakery_unlock i` zeroes `number[i]` and changes nothing else:
all other tickets, the whole `choosing` array, and both array lengths
are untouched. -/
theorem C7_release_frame (i : Nat) (s : BakeryState) (h : i < s.number.length) :
    (bakery_unlock i s).number[i]? = some 0 ∧
    (∀ j, j ≠ i → (bakery_unlock i s).number[j]? = s.number[j]?) ∧
    (bakery_unlock i s).choosing = s.choosing ∧
    (bakery_unlock i s).number.length = s.number.length := by
  refine ⟨?_, ?_, rfl, List.length_set s.number i 0⟩
  · show (s.number.set i 0)[i]? = some 0
    rw [List.getElem?_set_self]
    exact h
  · intro j hj
    exact List.getElem?_set_ne (fun he => hj he.symm)

/-- Witness for C7: releasing slot 0 of `⟨[false, true], [3, 5]⟩`. -/
theorem C7_release_frame_witness :
    0 < (⟨[false, true], [3, 5]⟩ : BakeryState).number.length ∧
    (bakery_unlock 0 ⟨[false, true], [3, 5]⟩).number[0]? = some 0 ∧
    (bakery_unlock 0 ⟨[false, true], [3, 5]⟩).number[1]? =
      (⟨[false, true], [3, 5]⟩ : BakeryState).number[1]? :=
  ⟨by decide,
   (C7_release_frame 0 ⟨[false, true], [3, 5]⟩ (by decide)).1,
   (C7_release_frame 0 ⟨[false, true], [3, 5]⟩ (by decide)).2.1 1 (by decide)⟩

/-- C8: `System.reset` empties the Registry (no choosing flag and no
ticket remains: both arrays are the empty sequence) and resets the id
counter to 0, so the next `allocate_bakery_id` returns 0. -/
theorem C8_reset_clears_registry_and_counter (s : SystemState) :
    (systemReset s).registry.choosing = [] ∧
    (systemReset s).registry.number = [] ∧
    (systemReset s).bakery_id_counter = 0 ∧
    (allocate_bakery_id (systemReset s)).1 = 0 :=
  ⟨rfl, rfl, rfl, rfl⟩

/-- `bakery_unlock` preserves the length invariant. -/
theorem lenInv_unlock (i : Nat) (s : BakeryState) (h : lenInv s) :
    lenInv (bakery_unlock i s) := by
  unfold lenInv bakery_unlock at *
  dsimp only
  rw [List.length_set]
  exact h

/-- C10: the `choosing` and `number` arrays always have equal length:
this holds for the initial arrays and is preserved by
`ensure_bakery_size`, `bakery_unlock`, `System.reset`, and every atomic
step of the acquire/release protocol (`threadStep`). -/
theorem C10_arrays_same_length :
    lenInv initialBakery ∧
    (∀ idx s, lenInv s → lenInv (ensure_bakery_size idx s)) ∧
    (∀ i s, lenInv s → lenInv (bakery_unlock i s)) ∧
    (∀ s, lenInv (systemReset s).registry) ∧
    (∀ s t, lenInv s → lenInv (threadStep s t).1) := by
  refine ⟨rfl, fun idx s h => lenInv_ensure idx s h,
    fun i s h => lenInv_unlock i s h, fun s => rfl, ?_⟩
  intro s t h
  obtain ⟨tid, pc, reg, bound, j0⟩ := t
  cases pc
  case ensure => exact lenInv_ensure tid s h
  case setChoosing =>
    show lenInv { s with choosing := s.choosing.set tid true }
    unfold lenInv at *
    dsimp only
    rw [List.length_set]
    exact h
  case readMax => exact h
  case writeTicket =>
    show lenInv { s with number := s.number.set tid (reg + 1) }
    unfold lenInv at *
    dsimp only
    rw [List.length_set]
    exact h
  case clearChoosing =>
    show lenInv { s with choosing := s.choosing.set tid false }
    unfold lenInv at *
    dsimp only
    rw [List.length_set]
    exact h
  case loopInit => exact h
  case loopTest =>
    unfold threadStep
    dsimp only
    split
    · exact h
    · split
      · exact h
      · exact h
  case innerTest =>
    unfold threadStep
    dsimp only
    split
    · exact h
    · exact h
  case inCS => exact h
  case unlockStep => exact lenInv_unlock tid s h
  case done => exact h

/-- Witness for C10 on concrete states. -/
theorem C10_arrays_same_length_witness :
    lenInv initialBakery ∧
    lenInv (ensure_bakery_size 2 ⟨[false], [0]⟩) ∧
    lenInv (bakery_unlock 0 ⟨[false], [0]⟩) :=
  ⟨C10_arrays_same_length.1,
   C10_arrays_same_length.2.1 2 ⟨[false], [0]⟩ (by decide),
   C10_arrays_same_length.2.2.1 0 ⟨[false], [0]⟩ (by decide)⟩

/-- C4 counterexample: on a fresh `System` (counter 0, empty Registry),
`allocate_bakery_id` changes the Registry — it calls
`ensure_bakery_size(0)` (line 184), growing both arrays from size 0 to
size 1 — so the Registry is NOT the same as before the call. -/
theorem C4_counterexample_alloc_grows :
    (allocate_bakery_id initialSystem).2.registry ≠ initialSystem.registry := by
  decide

/-- C4 (amended): `allocate_bakery_id` returns the old counter value and
increments the counter, but grows the Registry EAGERLY (it calls
`ensure_bakery_size` on the allocated id before returning): afterwards
both arrays are strictly longer than the returned id, preexisting slots
are unchanged, and appended slots hold the defaults. -/
theorem C4_amended_alloc_grows_eagerly (s : SystemState) (h : lenInv s.registry) :
    (allocate_bakery_id s).1 = s.bakery_id_counter ∧
    (allocate_bakery_id s).2.bakery_id_counter = s.bakery_id_counter + 1 ∧
    (allocate_bakery_id s).1 < (allocate_bakery_id s).2.registry.choosing.length ∧
    (allocate_bakery_id s).1 < (allocate_bakery_id s).2.registry.number.length ∧
    (∀ k, k < s.registry.choosing.length →
      (allocate_bakery_id s).2.registry.choosing[k]? = s.registry.choosing[k]? ∧
      (allocate_bakery_id s).2.registry.number[k]? = s.registry.number[k]?) ∧
    (∀ k, s.registry.choosing.length ≤ k →
        k < (allocate_bakery_id s).2.registry.choosing.length →
      (allocate_bakery_id s).2.registry.choosing[k]? = some false ∧
      (allocate_bakery_id s).2.registry.number[k]? = some 0) := by
  unfold lenInv at h
  have hlc := ensure_len_choosing s.bakery_id_counter s.registry
  have hln := ensure_len_number s.bakery_id_counter s.registry
  have hlt := ensure_idx_lt s.bakery_id_counter s.registry
  refine ⟨rfl, rfl, ?_, ?_, ?_, ?_⟩
  · exact hlt
  · show s.bakery_id_counter <
      (ensure_bakery_size s.bakery_id_counter s.registry).number.length
    omega
  · intro k hk
    exact ⟨ensure_choosing_frame _ k s.registry hk,
      ensure_number_frame _ k s.registry (by omega)⟩
  · intro k hk1 hk2
    have hk2a : k < (ensure_bakery_size s.bakery_id_counter s.registry).choosing.length := hk2
    exact ⟨ensure_choosing_default _ k s.registry hk1 hk2a,
      ensure_number_default _ k s.registry (by omega) (by omega)⟩

/-- Witness for the amended C4 on a fresh `System`. -/
theorem C4_amended_alloc_grows_eagerly_witness :
    lenInv initialSystem.registry ∧
    (allocate_bakery_id initialSystem).1 = initialSystem.bakery_id_counter ∧
    (allocate_bakery_id initialSystem).2.registry.choosing[0]? = some false :=
  ⟨by decide,
   (C4_amended_alloc_grows_eagerly initialSystem (by decide)).1,
   ((C4_amended_alloc_grows_eagerly initialSystem (by decide)).2.2.2.2.2 0
     (by decide) (by decide)).1⟩

/-- The interleaving used for C1 and C3: thread 0 runs `bakery_lock(0)`
to completion and sits in its critical section (8 atomic steps:
`ensure`, `setChoosing`, `readMax`, `writeTicket`, `clearChoosing`,
`loopInit`, two `loopTest` passes); then thread 1 runs `bakery_lock(1)`
to completion (9 atomic steps) and also enters the critical section. -/
def schedOverlap : List Nat := List.replicate 8 0 ++ List.replicate 9 1

/-- C3 counter-demonstration: under the interleaving `schedOverlap`,
BOTH threads end up inside their critical sections simultaneously
(both program counters are `inCS`), with thread 0 holding ticket 1 and
thread 1 holding ticket 2.  Mutual exclusion fails because the line-74
ticket wait is nested inside `while choosing[j]` and is skipped when
`choosing[j]` is false. -/
theorem C3_mutual_exclusion_violated :
    (runSched initTwo schedOverlap).threads.map ThreadSt.pc = [PC.inCS, PC.inCS] ∧
    (runSched initTwo schedOverlap).shared = ⟨[false, false], [1, 2]⟩ := by
  decide

/-- The configuration just before thread 1 skips over slot 0: thread 0
is in its critical section holding ticket 1; thread 1 holds ticket 2 and
is at the wait test for `j = 0` (14 steps of `schedOverlap` executed). -/
def c1Mid : Config := runSched initTwo (List.replicate 8 0 ++ List.replicate 6 1)

/-- C1 counter-demonstration: in `c1Mid`, the Fairness-Comparator wait
condition of line 74 holds for `i = 1`, `j = 0` (`number[0] = 1 ≠ 0` and
`(1, 0) < (2, 1)`), yet thread 1's next step proceeds past `j = 0`
(its loop counter moves from 0 to 1 and it never reaches the inner
test): `acquire(1)` passes slot 0 while `ticket[0] ≠ 0` and
`(ticket[0], 0)` is less than `(ticket[1], 1)`, because the second wait
of the claim is not unconditional in the code — it only runs after
`choosing[j]` is observed true. -/
theorem C1_ticket_wait_skipped :
    c1Mid.threads.map ThreadSt.pc = [PC.inCS, PC.loopTest] ∧
    c1Mid.threads.map ThreadSt.j = [1, 0] ∧
    waitCondB c1Mid.shared 1 0 = true ∧
    (stepTid c1Mid 1).threads.map ThreadSt.j = [1, 1] ∧
    (stepTid c1Mid 1).threads.map ThreadSt.pc = [PC.inCS, PC.loopTest] := by
  decide

/-- The 13-step solo schedule that takes the single thread of `initFive`
from start to its critical section. -/
def schedSolo : List Nat := List.replicate 13 0

/-- C9: a participant with id 5 on a completely fresh Registry acquires
the lock alone: growth creates slots 0..5 (size 6, all `choosing` flags
false), thread 5 takes ticket 1 (`number = [0,0,0,0,0,1]`), reaches the
critical section, and at no point of the run is it at the inner wait
(`innerTest` is never reached, so no busy-wait condition was ever
satisfied — the acquire never blocks). -/
theorem C9_fresh_id5_acquires_without_blocking :
    (runSched initFive schedSolo).shared =
      ⟨List.replicate 6 false, [0, 0, 0, 0, 0, 1]⟩ ∧
    (runSched initFive schedSolo).threads.map ThreadSt.pc = [PC.inCS] ∧
    ((List.range 14).all fun n =>
      decide ((runSched initFive (List.replicate n 0)).threads.map ThreadSt.pc
        ≠ [PC.innerTest])) = true := by
  decide

/-- The choose-window property claimed by C2, for a thread at
`setChoosing` with id `i` on shared state `s`: its next four atomic
steps are forced to be — in this order — set `choosing[i] := true`
(line 62), read the ticket maximum (line 64), write the ticket
(line 65), clear `choosing[i]` (line 66); `choosing[i]` is true from the
first step up to and including the ticket write and only the fourth step
makes it false, so the ticket computation occurs strictly between the
two flag writes; and the written ticket is strictly greater than every
ticket of the snapshot read at the `readMax` step and equals one of them
plus one — that is, `ticket[i] = 1 + max(ticket[j] for all known j)`. -/
def chooseWindowSpec (s : BakeryState) (i reg0 b0 j0 : Nat) : Prop :=
  let t0 : ThreadSt := ⟨i, PC.setChoosing, reg0, b0, j0⟩
  let r1 := threadStep s t0
  let r2 := threadStep r1.1 r1.2
  let r3 := threadStep r2.1 r2.2
  let r4 := threadStep r3.1 r3.2
  r1.2.pc = PC.readMax ∧
  r2.2.pc = PC.writeTicket ∧
  r3.2.pc = PC.clearChoosing ∧
  r4.2.pc = PC.loopInit ∧
  r1.1.choosing.getD i false = true ∧
  r2.1 = r1.1 ∧
  r3.1.choosing.getD i false = true ∧
  (∀ x ∈ r2.1.number, x < r3.1.number.getD i 0) ∧
  (∃ x ∈ r2.1.number, r3.1.number.getD i 0 = x + 1) ∧
  r4.1.choosing.getD i false = false ∧
  r4.1.number = r3.1.number

/-- C2: during acquire, the ticket is computed as
`1 + max(ticket[j] for all known j)` and the computation happens
strictly after `choosing[i] := true` and strictly before
`choosing[i] := false`. -/
theorem C2_ticket_between_flag_writes (s : BakeryState) (i reg0 b0 j0 : Nat)
    (hi : i < s.choosing.length) (hn : i < s.number.length) :
    chooseWindowSpec s i reg0 b0 j0 := by
  have hne : s.number ≠ [] := by
    intro he
    rw [he] at hn
    exact Nat.not_lt_zero i hn
  refine ⟨rfl, rfl, rfl, rfl, ?_, rfl, ?_, ?_, ?_, ?_, rfl⟩
  · exact getD_set_self s.choosing i true false hi
  · exact getD_set_self s.choosing i true false hi
  · show ∀ x ∈ s.number,
      x < (s.number.set i (maxNumber s.number + 1)).getD i 0
    intro x hx
    rw [getD_set_self s.number i (maxNumber s.number + 1) 0 hn]
    exact Nat.lt_succ_of_le (le_maxNumber s.number x hx)
  · show ∃ x ∈ s.number,
      (s.number.set i (maxNumber s.number + 1)).getD i 0 = x + 1
    exact ⟨maxNumber s.number, maxNumber_mem s.number hne,
      by rw [getD_set_self s.number i (maxNumber s.number + 1) 0 hn]⟩
  · show ((s.choosing.set i true).set i false).getD i false = false
    exact getD_set_self (s.choosing.set i true) i false false
      (by rw [List.length_set]; exact hi)

/-- Witness for C2: the choose window of participant 1 on the state
`⟨[false, false], [4, 0]⟩` (it takes ticket 5 = 1 + max 4). -/
theorem C2_ticket_between_flag_writes_witness :
    1 < (⟨[false, false], [4, 0]⟩ : BakeryState).choosing.length ∧
    1 < (⟨[false, false], [4, 0]⟩ : BakeryState).number.length ∧
    chooseWindowSpec ⟨[false, false], [4, 0]⟩ 1 0 0 0 :=
  ⟨by decide, by decide,
   C2_ticket_between_flag_writes ⟨[false, false], [4, 0]⟩ 1 0 0 0
     (by decide) (by decide)⟩
